import Mathlib

/-!
Verification development for the TRAX core (tokenizer + document model).

The Rust sources `src/lib/parser/src/lib.rs`, `src/lib/parser/src/error.rs`,
`src/lib/document/src/lib.rs` and `src/lib/document/src/manipulation.rs` are
embedded shallowly below.  The files `stream.rs`, `strspan.rs` and
`xmlchar.rs` of the parser crate are not part of the source tree; the
corresponding definitions are modelled from the specification (each such
definition carries a doc comment starting with `Modelled from the spec:`).

Modelling conventions:
* Source text is a `List Char`; stream positions count Unicode scalar values
  (the Rust stream is byte addressed, and for the ASCII inputs of every
  concrete computation below the two coincide; `advance(c.len_utf8())`
  becomes `advance 1`).
* Rust `usize` is `Nat`.  Arithmetic that Rust performs with overflow checks
  (the default debug profile, and the profile under which the crate's
  "the library must not panic" contract is stated) is modelled by `subChecked`,
  which signals a panic on underflow.  Slice indexing out of bounds and
  `Option::unwrap` of `None` likewise signal panics.
* Computations that can panic or (for the genuinely partial loops) run out of
  fuel produce values in `Run`: `Run.out a` is a normal return, `Run.panic`
  an aborted execution, `Run.nofuel` an execution that did not finish within
  the given fuel.  Functions whose Rust loops always consume input are
  written as total recursions over the remaining input and need no fuel.
-/

namespace Trax

/-- Outcome of running a piece of Rust code: a returned value, a panic, or a
computation that did not finish within the allotted fuel. -/
inductive Run (α : Type) where
  | out (a : α)
  | panic
  | nofuel
deriving DecidableEq, Repr

namespace Run

def bind {α β : Type} : Run α → (α → Run β) → Run β
  | out a, f => f a
  | panic, _ => panic
  | nofuel, _ => nofuel

def map {α β : Type} (f : α → β) : Run α → Run β
  | out a => out (f a)
  | panic => panic
  | nofuel => nofuel

instance : Monad Run where
  pure := Run.out
  bind := Run.bind
  map := Run.map

end Run

/-- Checked `usize` subtraction: Rust panics on underflow. -/
def subChecked (a b : Nat) : Run Nat :=
  if b ≤ a then .out (a - b) else .panic

/-- `Vec`/slice indexing `v[i]`: Rust panics when out of bounds. -/
def getChecked {α : Type} (l : List α) (i : Nat) : Run α :=
  match l.get? i with
  | some a => .out a
  | none => .panic

/-- `Option::unwrap`: Rust panics on `None`. -/
def unwrapChecked {α : Type} : Option α → Run α
  | some a => .out a
  | none => .panic

instance {ε α : Type} [DecidableEq ε] [DecidableEq α] : DecidableEq (Except ε α) :=
  fun a b =>
    match a, b with
    | .ok x, .ok y =>
      if h : x = y then isTrue (by rw [h]) else isFalse (by simp [h])
    | .error x, .error y =>
      if h : x = y then isTrue (by rw [h]) else isFalse (by simp [h])
    | .ok _, .error _ => isFalse (by simp)
    | .error _, .ok _ => isFalse (by simp)

/-- 1-based row/column position (`TextPos` of `error.rs`). -/
structure TextPos where
  row : Nat
  col : Nat
deriving DecidableEq, Repr

/-- `TextPos - n` saturates the column at zero (`impl Sub<u32> for TextPos`). -/
def TextPos.sub (p : TextPos) (n : Nat) : TextPos :=
  { row := p.row, col := p.col - n }

/-- Modelled from the spec: `TextPos` computed from an offset — 1 plus the
number of newlines before the offset, and 1 plus the scalar values since the
last line start (`gen_text_pos` lives in the missing `stream.rs`). -/
def textPosAt (text : List Char) (off : Nat) : TextPos :=
  let pre := text.take off
  { row := 1 + pre.count '\n'
    col := 1 + (pre.reverse.takeWhile (fun c => c ≠ '\n')).length }

/-- Modelled from the spec: a byte range rendered as a 1-based row/col range
(`TextRange`/`span_text_range` live in the missing `strspan.rs`). -/
structure TextRange where
  first : TextPos
  last : TextPos
deriving DecidableEq, Repr

/-- A span `[start, stop)` into the source text (`StrSpan` offsets; the
backing text is passed separately where the slice is needed). -/
structure Span where
  start : Nat
  stop : Nat
deriving DecidableEq, Repr

/-- Modelled from the spec: `span_text_range` — both span ends rendered as
1-based positions. -/
def spanTextRange (source : List Char) (sp : Span) : TextRange :=
  { first := textPosAt source sp.start, last := textPosAt source sp.stop }

/-- Modelled from the spec: `is_xml_space` of the missing `xmlchar.rs`
(`' '`, `\t`, `\r`, `\n`). -/
def isXmlSpace (c : Char) : Bool :=
  c = ' ' || c = '\t' || c = '\r' || c = '\n'

/-- Modelled from the spec: `is_xml_char` of the missing `xmlchar.rs`,
mirroring the XML 1.0 `Char` production. -/
def isXmlChar (c : Char) : Bool :=
  let n := c.toNat
  n = 0x9 || n = 0xA || n = 0xD ||
  (0x20 ≤ n && n ≤ 0xD7FF) ||
  (0xE000 ≤ n && n ≤ 0xFFFD) ||
  (0x10000 ≤ n && n ≤ 0x10FFFF)

/-- Modelled from the spec: `is_xml_name_start` of the missing `xmlchar.rs`,
mirroring XML 1.0 `NameStartChar` (`:` excluded — it separates the prefix
from the local name). -/
def isXmlNameStart (c : Char) : Bool :=
  let n := c.toNat
  (0x41 ≤ n && n ≤ 0x5A) || n = 0x5F || (0x61 ≤ n && n ≤ 0x7A) ||
  (0xC0 ≤ n && n ≤ 0xD6) || (0xD8 ≤ n && n ≤ 0xF6) ||
  (0xF8 ≤ n && n ≤ 0x2FF) || (0x370 ≤ n && n ≤ 0x37D) ||
  (0x37F ≤ n && n ≤ 0x1FFF) || (0x200C ≤ n && n ≤ 0x200D) ||
  (0x2070 ≤ n && n ≤ 0x218F) || (0x2C00 ≤ n && n ≤ 0x2FEF) ||
  (0x3001 ≤ n && n ≤ 0xD7FF) || (0xF900 ≤ n && n ≤ 0xFDCF) ||
  (0xFDF0 ≤ n && n ≤ 0xFFFD) || (0x10000 ≤ n && n ≤ 0xEFFFF)

/-- Modelled from the spec: `is_xml_name` of the missing `xmlchar.rs`,
mirroring XML 1.0 `NameChar`. -/
def isXmlName (c : Char) : Bool :=
  let n := c.toNat
  isXmlNameStart c || c = '-' || c = '.' || (0x30 ≤ n && n ≤ 0x39) ||
  n = 0xB7 || (0x300 ≤ n && n ≤ 0x36F) || (0x203F ≤ n && n ≤ 0x2040)

/-- `StreamError` of `error.rs`.  `InvalidString` carries the expected
string (a `&'static str` in Rust). -/
inductive StreamError where
  | UnexpectedEndOfStream
  | InvalidName
  | NonXmlChar (c : Char) (pos : TextPos)
  | InvalidChar (actual expected : Char) (pos : TextPos)
  | InvalidQuote (c : Char) (pos : TextPos)
  | InvalidSpace (c : Char) (pos : TextPos)
  | InvalidString (expected : List Char) (pos : TextPos)
  | InvalidReference
deriving DecidableEq, Repr

/-- `Error` of `error.rs` (the tokenizer's outer error type). -/
inductive PError where
  | InvalidComment (e : StreamError) (pos : TextPos)
  | InvalidElement (e : StreamError) (pos : TextPos)
  | InvalidAttribute (e : StreamError) (pos : TextPos)
  | InvalidCharData (e : StreamError) (pos : TextPos)
  | UnknownToken (pos : TextPos)
deriving DecidableEq, Repr

/-- Modelled from the spec: the `Stream` of the missing `stream.rs` — a
cursor `pos` over a read-only `text`, bounded by `stop` (the substring end
used by fragment parsing; `stop = text.length` for whole-text parsing). -/
structure Stream where
  text : List Char
  pos : Nat
  stop : Nat
deriving DecidableEq, Repr

namespace Stream

/-- Remaining visible input. -/
def window (s : Stream) : List Char :=
  (s.text.take s.stop).drop s.pos

def atEnd (s : Stream) : Bool := s.stop ≤ s.pos

/-- Modelled from the spec: `curr_byte`. -/
def currByte (s : Stream) : Except StreamError Char :=
  match s.window.head? with
  | some c => .ok c
  | none => .error .UnexpectedEndOfStream

/-- Modelled from the spec: `next_byte` (peek one past the cursor). -/
def nextByte (s : Stream) : Except StreamError Char :=
  match s.window.get? 1 with
  | some c => .ok c
  | none => .error .UnexpectedEndOfStream

/-- `curr_byte_unchecked` (callers guarantee `¬ atEnd`). -/
def currByteUnchecked (s : Stream) : Char := s.window.headD ' '

def advance (s : Stream) (n : Nat) : Stream := { s with pos := s.pos + n }

/-- Modelled from the spec: `back` steps the cursor one scalar back. -/
def back (s : Stream) : Stream := { s with pos := s.pos - 1 }

def startsWith (s : Stream) (pat : List Char) : Bool :=
  pat.isPrefixOf s.window

def startsWithSpace (s : Stream) : Bool :=
  match s.window.head? with
  | some c => isXmlSpace c
  | none => false

/-- Modelled from the spec: `skip_spaces` advances over XML whitespace. -/
def skipSpaces (s : Stream) : Stream :=
  s.advance (s.window.takeWhile isXmlSpace).length

def genTextPos (s : Stream) : TextPos := textPosAt s.text s.pos

def genTextPosFrom (s : Stream) (start : Nat) : TextPos := textPosAt s.text start

/-- The characters consumed since `start` (`slice_back`). -/
def sliceBack (s : Stream) (start : Nat) : List Char :=
  (s.text.take s.pos).drop start

def jumpToEnd (s : Stream) : Stream := { s with pos := s.stop }

/-- Modelled from the spec: `skip_string` — expect a literal, failing with
`UnexpectedEndOfStream` at end of input and `InvalidString` otherwise. -/
def skipString (s : Stream) (pat : List Char) : Except StreamError Stream :=
  if s.startsWith pat then .ok (s.advance pat.length)
  else if s.atEnd then .error .UnexpectedEndOfStream
  else .error (.InvalidString pat s.genTextPos)

/-- Modelled from the spec: `consume_byte` — expect one exact character. -/
def consumeByte (s : Stream) (expected : Char) : Except StreamError Stream :=
  match s.currByte with
  | .error _ => .error .UnexpectedEndOfStream
  | .ok c =>
    if c = expected then .ok (s.advance 1)
    else .error (.InvalidChar c expected s.genTextPos)

/-- Modelled from the spec: `consume_quote` — one of `"` or `'`. -/
def consumeQuote (s : Stream) : Except StreamError (Char × Stream) :=
  match s.currByte with
  | .error _ => .error .UnexpectedEndOfStream
  | .ok c =>
    if c = '"' ∨ c = Char.ofNat 39 then .ok (c, s.advance 1)
    else .error (.InvalidQuote c s.genTextPos)

/-- Modelled from the spec: `try_consume_eq` — `=` optionally surrounded by
whitespace; on failure the stream is left untouched. -/
def tryConsumeEq (s : Stream) : Bool × Stream :=
  let s1 := s.skipSpaces
  match s1.currByte with
  | .ok c => if c = '=' then (true, (s1.advance 1).skipSpaces) else (false, s)
  | .error _ => (false, s)

/-- Loop body of `consume_chars`: every iteration consumes one scalar, so the
initial `stop - pos` is an exact iteration bound (no fuel needed). -/
def consumeCharsGo (f : Stream → Char → Bool) : Nat → Stream → Except StreamError Stream
  | 0, s => .ok s
  | n + 1, s =>
    match s.window.head? with
    | none => .ok s
    | some c =>
      if ¬ isXmlChar c then .error (.NonXmlChar c s.genTextPos)
      else if f s c then consumeCharsGo f n (s.advance 1)
      else .ok s

/-- Modelled from the spec: `consume_chars` — consume scalars while the
predicate holds, each one checked against the XML `Char` production. -/
def consumeChars (s : Stream) (f : Stream → Char → Bool) :
    Except StreamError (List Char × Stream) :=
  (consumeCharsGo f (s.stop - s.pos) s).map fun s' => (s'.sliceBack s.pos, s')

/-- Loop body of `consume_qname`: scan name characters remembering the
position of the first `:`; a second `:` is an invalid name. -/
def qnameGo : Nat → Stream → Option Nat → Except StreamError (Option Nat × Stream)
  | 0, s, sp => .ok (sp, s)
  | n + 1, s, sp =>
    match s.window.head? with
    | none => .ok (sp, s)
    | some c =>
      if c = ':' then
        match sp with
        | none => qnameGo n (s.advance 1) (some s.pos)
        | some _ => .error .InvalidName
      else if isXmlName c then qnameGo n (s.advance 1) sp
      else .ok (sp, s)

/-- Modelled from the spec: `consume_qname` — `prefix:local` or `local`;
the name must be nonempty, start with a name-start character, and contain at
most one `:` (which separates the prefix). -/
def consumeQname (s : Stream) : Except StreamError (List Char × List Char × Stream) :=
  match qnameGo (s.stop - s.pos) s none with
  | .error e => .error e
  | .ok (sp, s') =>
    let pfx := match sp with
      | some k => (s.text.take k).drop s.pos
      | none => []
    let loc := match sp with
      | some k => (s.text.take s'.pos).drop (k + 1)
      | none => (s.text.take s'.pos).drop s.pos
    let whole := (s.text.take s'.pos).drop s.pos
    if loc = [] then .error .InvalidName
    else
      match whole.head? with
      | some c0 => if isXmlNameStart c0 then .ok (pfx, loc, s') else .error .InvalidName
      | none => .error .InvalidName

end Stream

/-- `ElementEnd` of `lib.rs`: `>`, `</name>`, or `/>`. -/
inductive ElemEnd where
  | Open
  | Close (pfx loc : List Char)
  | Empty
deriving DecidableEq, Repr

/-- `Token` of `lib.rs`.  Spans are offset pairs into the source; the name
and content fields carry the resolved slices (Rust's `StrSpan::as_str`). -/
inductive Token where
  | Comment (text : List Char) (span : Span)
  | ElementStart (pfx loc : List Char) (span : Span)
  | Attribute (pfx loc value : List Char) (span : Span)
  | Modifier (pfx loc : List Char) (span : Span)
  | ElementEnd (e : ElemEnd) (span : Span)
  | Text (content : List Char) (span : Span)
deriving DecidableEq, Repr

/-- `Token::span` — the span covering the whole token (for `Text` it equals
the text span). -/
def Token.span : Token → Span
  | .Comment _ sp => sp
  | .ElementStart _ _ sp => sp
  | .Attribute _ _ _ sp => sp
  | .Modifier _ _ sp => sp
  | .ElementEnd _ sp => sp
  | .Text _ sp => sp

/-- Tokenizer state (`enum State` of `lib.rs`). -/
inductive TkState where
  | Root
  | Elements
  | Attributes
  | AfterElements
  | End
deriving DecidableEq, Repr

/-- `Tokenizer` of `lib.rs`. -/
structure Tk where
  stream : Stream
  state : TkState
  depth : Nat
  fragment : Bool
deriving DecidableEq, Repr

/-- `Tokenizer::from(&str)`: skip a BOM, skip leading whitespace, start in
`Root` (the three-byte UTF-8 BOM is the single scalar U+FEFF). -/
def tokenizerFrom (source : List Char) : Tk :=
  let s0 : Stream := { text := source, pos := 0, stop := source.length }
  let s1 := if s0.startsWith [Char.ofNat 0xFEFF] then s0.advance 1 else s0
  { stream := s1.skipSpaces, state := .Root, depth := 0, fragment := false }

/-- `Tokenizer::from_fragment`: parse a substring range in `Elements` state
with the root-element requirement suppressed. -/
def tokenizerFromFragment (full : List Char) (first stop : Nat) : Tk :=
  { stream := { text := full, pos := first, stop := stop },
    state := .Elements, depth := 0, fragment := true }

/-- `parse_comment_impl` + the `map_err` of `parse_comment`:
`/* … */`, inner text is the maximal run not containing `*/`. -/
def parseComment (s : Stream) : (Except PError Token) × Stream :=
  let start := s.pos
  let s1 := s.advance 2
  match s1.consumeChars (fun st _ => ¬ st.startsWith ['*', '/']) with
  | .error e => (.error (.InvalidComment e (s.genTextPosFrom start)), s1)
  | .ok (text, s2) =>
    match s2.skipString ['*', '/'] with
    | .error e => (.error (.InvalidComment e (s2.genTextPosFrom start)), s2)
    | .ok s3 => (.ok (.Comment text { start := start, stop := s3.pos }), s3)

/-- `parse_element_start_impl` + its `map_err_at`: `<` followed by a QName;
the span covers `<…` through the end of the name. -/
def parseElementStart (s : Stream) : (Except PError Token) × Stream :=
  let start := s.pos
  let s1 := s.advance 1
  match s1.consumeQname with
  | .error e => (.error (.InvalidElement e (s1.genTextPosFrom start)), s1)
  | .ok (pfx, loc, s2) =>
    (.ok (.ElementStart pfx loc { start := start, stop := s2.pos }), s2)

/-- `parse_close_element_impl` + its `map_err_at`: `</` QName S? `>`. -/
def parseCloseElement (s : Stream) : (Except PError Token) × Stream :=
  let start := s.pos
  let s1 := s.advance 2
  match s1.consumeQname with
  | .error e => (.error (.InvalidElement e (s1.genTextPosFrom start)), s1)
  | .ok (pfx, loc, s2) =>
    let s3 := s2.skipSpaces
    match s3.consumeByte '>' with
    | .error e => (.error (.InvalidElement e (s3.genTextPosFrom start)), s3)
    | .ok s4 =>
      (.ok (.ElementEnd (.Close pfx loc) { start := start, stop := s4.pos }), s4)

/-- `parse_attribute`: one attribute, modifier, or start-tag terminator.
Returns the raw `StreamError` (the caller wraps it in `InvalidAttribute`). -/
def parseAttribute (s : Stream) : Except StreamError (Token × Stream) :=
  let attrStart := s.pos
  let hasSpace := s.startsWithSpace
  let s := s.skipSpaces
  match s.currByte with
  | .ok '/' =>
    let start := s.pos
    let s1 := s.advance 1
    match s1.consumeByte '>' with
    | .error e => .error e
    | .ok s2 => .ok (.ElementEnd .Empty { start := start, stop := s2.pos }, s2)
  | .ok '>' =>
    let start := s.pos
    .ok (.ElementEnd .Open { start := start, stop := s.pos + 1 }, s.advance 1)
  | _ =>
    if ¬ hasSpace then
      if ¬ s.atEnd then
        .error (.InvalidSpace s.currByteUnchecked (s.genTextPosFrom attrStart))
      else
        .error .UnexpectedEndOfStream
    else
      let start := s.pos
      match s.consumeQname with
      | .error e => .error e
      | .ok (pfx, loc, s1) =>
        match s1.tryConsumeEq with
        | (true, s2) =>
          match s2.consumeQuote with
          | .error e => .error e
          | .ok (quote, s3) =>
            match s3.consumeChars (fun _ c => c ≠ quote ∧ c ≠ '<') with
            | .error e => .error e
            | .ok (value, s4) =>
              match s4.consumeByte quote with
              | .error e => .error e
              | .ok s5 =>
                .ok (.Attribute pfx loc value { start := start, stop := s5.pos }, s5)
        | (false, s2) =>
          let s3 := s2.back
          let s4 := if ¬ s3.startsWithSpace then s3.advance 1 else s3
          .ok (.Modifier pfx loc { start := start, stop := s4.pos }, s4)

/-- The character loop of `parse_text_impl`.  The loop iterates a snapshot
`chars` of the remaining input while advancing the stream separately; when
the snapshot is exhausted without `<` or `/*` the Rust loop spins forever —
hence the fuel, and `nofuel` at every fuel for that state. -/
def parseTextLoop : Nat → List Char → Stream → Run (Except StreamError Stream)
  | 0, _, _ => .nofuel
  | n + 1, [], s => parseTextLoop n [] s
  | n + 1, c :: rest, s =>
    if ¬ isXmlChar c then .out (.error (.NonXmlChar c s.genTextPos))
    else if c = '/' then
      match rest with
      | next :: rest2 =>
        if next = '*' then .out (.ok s)
        else parseTextLoop n rest2 (s.advance 1)
      | [] => parseTextLoop n [] (s.advance 1)
    else if c = '<' then .out (.ok s)
    else parseTextLoop n rest (s.advance 1)

/-- The trailing-whitespace trim of `parse_text_impl`: step back once, keep
stepping back over spaces, step forward once.  `back` at offset zero is a
`usize` underflow, i.e. a panic. -/
def trimTextGo : Nat → Stream → Run Stream
  | 0, s => if s.startsWithSpace then .panic else .out s
  | n + 1, s => if s.startsWithSpace then trimTextGo n s.back else .out s

/-- `parse_text_impl` + the `map_err_at` of `parse_text`. -/
def parseText (fuel : Nat) (s : Stream) : Run ((Except PError Token) × Stream) :=
  let start := s.pos
  match parseTextLoop fuel s.window s with
  | .nofuel => .nofuel
  | .panic => .panic
  | .out (.error e) => .out (.error (.InvalidCharData e (s.genTextPosFrom start)), s)
  | .out (.ok s1) =>
    match trimTextGo s1.pos s1.back with
    | .nofuel => .nofuel
    | .panic => .panic
    | .out s2 =>
      let s3 := s2.advance 1
      .out (.ok (.Text (s3.sliceBack start) { start := start, stop := s3.pos }), s3)

/-- `Tokenizer::parse_next_impl`: one step of the state machine.  Returns the
emitted item (`none` when this step emits nothing) and the new tokenizer. -/
def parseNextImpl (fuel : Nat) (tk : Tk) : Run ((Option (Except PError Token)) × Tk) :=
  let s := tk.stream
  if s.atEnd then .out (none, tk)
  else
    let start := s.pos
    match tk.state with
    | .Root =>
      match s.currByte with
      | .ok '<' =>
        match s.nextByte with
        | .ok '/' =>
          .out (some (.error (.InvalidElement .InvalidName s.genTextPos)), tk)
        | .error _ =>
          .out (some (.error (.InvalidElement .InvalidName s.genTextPos)), tk)
        | .ok _ =>
          let (r, s') := parseElementStart s
          .out (some r, { tk with stream := s', state := .Attributes })
      | .ok '/' =>
        match s.nextByte with
        | .ok '*' =>
          let (r, s') := parseComment s
          .out (some r, { tk with stream := s' })
        | _ => .out (some (.error (.UnknownToken (s.genTextPos.sub 1))), tk)
      | _ => .out (some (.error (.UnknownToken s.genTextPos)), tk)
    | .Elements =>
      let s := s.skipSpaces
      match s.currByte with
      | .ok '<' =>
        match s.nextByte with
        | .ok '/' =>
          let depth1 := if tk.depth > 0 then tk.depth - 1 else tk.depth
          let state1 : TkState :=
            if depth1 = 0 ∧ ¬ tk.fragment then .AfterElements else .Elements
          let (r, s') := parseCloseElement s
          .out (some r, { stream := s', state := state1, depth := depth1,
                          fragment := tk.fragment })
        | .ok _ =>
          let (r, s') := parseElementStart s
          .out (some r, { tk with stream := s', state := .Attributes })
        | .error _ =>
          .out (some (.error (.UnknownToken s.genTextPos)), { tk with stream := s })
      | .ok '/' =>
        match s.nextByte with
        | .ok '*' =>
          let (r, s') := parseComment s
          .out (some r, { tk with stream := s' })
        | _ =>
          .out (some (.error (.UnknownToken (s.genTextPos.sub 1))),
                { tk with stream := s })
      | .ok _ =>
        match parseText fuel s with
        | .nofuel => .nofuel
        | .panic => .panic
        | .out (r, s') => .out (some r, { tk with stream := s' })
      | .error _ =>
        .out (some (.error (.UnknownToken s.genTextPos)), { tk with stream := s })
    | .Attributes =>
      match parseAttribute s with
      | .ok (tok, s') =>
        match tok with
        | .ElementEnd e _ =>
          let depth1 := if e = .Open then tk.depth + 1 else tk.depth
          let state1 : TkState :=
            if depth1 = 0 ∧ ¬ tk.fragment then .AfterElements else .Elements
          .out (some (.ok tok), { stream := s', state := state1, depth := depth1,
                                  fragment := tk.fragment })
        | _ => .out (some (.ok tok), { tk with stream := s' })
      | .error e =>
        .out (some (.error (.InvalidAttribute e (s.genTextPosFrom start))), tk)
    | .AfterElements =>
      if s.startsWith ['/', '*'] then
        let (r, s') := parseComment s
        .out (some r, { tk with stream := s' })
      else if s.startsWithSpace then
        .out (none, { tk with stream := s.skipSpaces })
      else
        .out (some (.error (.UnknownToken s.genTextPos)), tk)
    | .End => .out (none, tk)

/-- `<Tokenizer as Iterator>::next`: loop `parse_next_impl` until an item is
produced or the input/state runs out; on an error item, fast-forward the
stream and move to `End`. -/
def tkNext : Nat → Tk → Run ((Option (Except PError Token)) × Tk)
  | 0, _ => .nofuel
  | fuel + 1, tk =>
    if ¬ tk.stream.atEnd ∧ tk.state ≠ .End then
      match parseNextImpl (fuel + 1) tk with
      | .nofuel => .nofuel
      | .panic => .panic
      | .out (none, tk') => tkNext fuel tk'
      | .out (some t, tk') =>
        match t with
        | .error _ =>
          .out (some t, { tk' with stream := tk'.stream.jumpToEnd, state := .End })
        | .ok _ => .out (some t, tk')
    else .out (none, tk)

/-- `EntityRef` of `document/src/lib.rs`: a tagged index into one of the
stores. -/
inductive EntityRef where
  | Element (i : Nat)
  | Text (i : Nat)
deriving DecidableEq, Repr, BEq

/-- `Attribute` of `document/src/lib.rs` (the field named `prefix` in Rust
is `pfx` here). -/
structure Attr where
  pfx : List Char
  loc : List Char
  value : Option (List Char)
deriving DecidableEq, Repr

/-- `Element` of `document/src/lib.rs` (fields `prefix`/`local` are
`pfx`/`loc` here; `VecDeque`s are lists). -/
structure Element where
  parent : Nat
  children : List EntityRef
  pfx : List Char
  loc : List Char
  attributes : List Attr
deriving DecidableEq, Repr

/-- `Text` of `document/src/lib.rs`. -/
structure TextSeg where
  parent : Nat
  content : List Char
deriving DecidableEq, Repr

/-- `Document` of `document/src/lib.rs`: two flat stores of optional slots. -/
structure Document where
  elementStore : List (Option Element)
  textStore : List (Option TextSeg)
deriving DecidableEq, Repr

/-- `DocumentParseError` of `document/src/lib.rs`. -/
inductive DocumentParseError where
  | EmptyDocument
  | InvalidRootElement (range : TextRange)
  | SyntaxError (e : PError)
  | InvalidTreeStructure (closedElem currentOpenElem : List Char) (location : TextRange)
deriving DecidableEq, Repr

/-- `gen_full_name`: `prefix:local`, or `local` when the prefix is empty. -/
def genFullName (pfx loc : List Char) : List Char :=
  if pfx ≠ [] then pfx ++ ':' :: loc else loc

/-- `validate_document_start`: the first token must be an `ElementStart`
with empty prefix and local name `document`. -/
def validateDocumentStart (source : List Char)
    (firstToken : Option (Except PError Token)) : Except DocumentParseError Unit :=
  match firstToken with
  | some (.ok (.ElementStart pfx loc sp)) =>
    if loc = "document".data ∧ pfx = [] then .ok ()
    else .error (.InvalidRootElement (spanTextRange source sp))
  | some (.ok tok) => .error (.InvalidRootElement (spanTextRange source tok.span))
  | some (.error e) => .error (.SyntaxError e)
  | none => .error .EmptyDocument

/-- The loop state of `Document::new`: counters, the open-element stack
(`hierarchy`; its Rust `last()` is the head here), and the two stores. -/
structure PState where
  elementNum : Nat
  textNum : Nat
  hierarchy : List Nat
  elementStore : List (Option Element)
  textStore : List (Option TextSeg)
deriving DecidableEq, Repr

/-- The body of the `for token in tokenizer` loop of `Document::new`,
processing one token.  `hierarchy.last().unwrap()` on an empty stack and
the `element_store[top].as_mut().unwrap()` accesses are panics. -/
def docStep (source : List Char) (st : PState) (tok : Token) :
    Run (Except DocumentParseError PState) :=
  match st.hierarchy.head? with
  | none => .panic
  | some topElem =>
    match tok with
    | .ElementEnd .Empty _ =>
      .out (.ok { st with hierarchy := st.hierarchy.tail })
    | .ElementStart p l _ =>
      match st.elementStore.get? topElem with
      | some (some e) =>
        let e' := { e with children := e.children ++ [.Element st.elementNum] }
        .out (.ok { elementNum := st.elementNum + 1
                    textNum := st.textNum
                    hierarchy := st.elementNum :: st.hierarchy
                    elementStore := (st.elementStore.set topElem (some e')) ++
                      [some { parent := topElem, children := [], pfx := p, loc := l,
                              attributes := [] }]
                    textStore := st.textStore })
      | _ => .panic
    | .Attribute p l v _ =>
      match st.elementStore.get? topElem with
      | some (some e) =>
        let e' := { e with attributes := e.attributes ++ [⟨p, l, some v⟩] }
        .out (.ok { st with elementStore := st.elementStore.set topElem (some e') })
      | _ => .panic
    | .Modifier p l _ =>
      match st.elementStore.get? topElem with
      | some (some e) =>
        let e' := { e with attributes := e.attributes ++ [⟨p, l, none⟩] }
        .out (.ok { st with elementStore := st.elementStore.set topElem (some e') })
      | _ => .panic
    | .ElementEnd (.Close p l) sp =>
      match st.elementStore.get? topElem with
      | some (some e) =>
        if e.pfx = p ∧ e.loc = l then
          .out (.ok { st with hierarchy := st.hierarchy.tail })
        else
          .out (.error (.InvalidTreeStructure (genFullName p l)
            (genFullName e.pfx e.loc) (spanTextRange source sp)))
      | _ => .panic
    | .Text content _ =>
      match st.elementStore.get? topElem with
      | some (some e) =>
        let e' := { e with children := e.children ++ [.Text st.textNum] }
        .out (.ok { st with
          elementStore := st.elementStore.set topElem (some e')
          textStore := st.textStore ++ [some { parent := topElem, content := content }]
          textNum := st.textNum + 1 })
      | _ => .panic
    | _ => .out (.ok st)

/-- The token loop of `Document::new`. -/
def docLoop (source : List Char) : Nat → Tk → PState →
    Run (Except DocumentParseError Document)
  | 0, _, _ => .nofuel
  | fuel + 1, tk, st =>
    match tkNext (fuel + 1) tk with
    | .nofuel => .nofuel
    | .panic => .panic
    | .out (none, _) =>
      .out (.ok { elementStore := st.elementStore, textStore := st.textStore })
    | .out (some (.error e), _) => .out (.error (.SyntaxError e))
    | .out (some (.ok tok), tk') =>
      match docStep source st tok with
      | .nofuel => .nofuel
      | .panic => .panic
      | .out (.error e) => .out (.error e)
      | .out (.ok st') => docLoop source fuel tk' st'

/-- The root slot pushed by `Document::new` before the loop. -/
def rootElement : Element :=
  { parent := 0, children := [], pfx := [], loc := "document".data, attributes := [] }

/-- `Document::new`: validate the first token, then run the token loop from
`hierarchy = [0]` and the store holding the root `<document>` element. -/
def docNew (source : List Char) (fuel : Nat) : Run (Except DocumentParseError Document) :=
  let tk0 := tokenizerFrom source
  match tkNext fuel tk0 with
  | .nofuel => .nofuel
  | .panic => .panic
  | .out (firstToken, tk1) =>
    match validateDocumentStart source firstToken with
    | .error e => .out (.error e)
    | .ok () =>
      docLoop source fuel tk1
        { elementNum := 1, textNum := 0, hierarchy := [0],
          elementStore := [some rootElement], textStore := [] }

/-- Tab indentation helper of `elem_into_string`. -/
def tabs (n : Nat) : List Char := List.replicate n '\t'

/-- The attribute serialization of `elem_into_string`: a space, the full
name, and `="value"` when a value is present. -/
def renderAttrs (attrs : List Attr) : List Char :=
  attrs.foldl (fun acc a =>
    acc ++ ' ' :: genFullName a.pfx a.loc ++
      (match a.value with
       | some v => '=' :: '"' :: v ++ ['"']
       | none => [])) []

/-- `Document::elem_into_string`: render one element at the given tab level.
Dangling indices and `None` slots are `unwrap`/indexing panics.  The child
loop is a fold over the children; the fuel (structural, so the definition
computes) bounds the recursion depth through child elements. -/
def elemIntoString : Nat → Document → Nat → Nat → Run (List Char)
  | 0, _, _, _ => .nofuel
  | fuel + 1, d, root, tabLevel =>
    match d.elementStore.get? root with
    | some (some e) =>
      let fullName := genFullName e.pfx e.loc
      let head := tabs tabLevel ++ '<' :: fullName ++ renderAttrs e.attributes
      if e.children.isEmpty then .out (head ++ (' ' :: '/' :: '>' :: ['\n']))
      else
        let body := e.children.foldl (fun (acc : Run (List Char)) r =>
          acc.bind fun s1 =>
            (match r with
             | EntityRef.Element c => elemIntoString fuel d c (tabLevel + 1)
             | EntityRef.Text c =>
               match d.textStore.get? c with
               | some (some t) => Run.out (tabs (tabLevel + 1) ++ t.content ++ ['\n'])
               | _ => Run.panic).map fun s2 => s1 ++ s2) (Run.out [])
        match body with
        | .out b =>
          .out (head ++ '>' :: '\n' :: b ++ tabs tabLevel ++
            '<' :: '/' :: fullName ++ ['>', '\n'])
        | .panic => .panic
        | .nofuel => .nofuel
    | _ => .panic

/-- `Document::into_string`: render the whole document from element `0`. -/
def intoString (d : Document) (fuel : Nat) : Run (List Char) :=
  elemIntoString fuel d 0 0

/-- `DropEntityError` of `manipulation.rs`. -/
inductive DropEntityError where
  | RefuseDropRoot
  | NotFound (r : EntityRef)
deriving DecidableEq, Repr

/-- `InsertElementError` of `manipulation.rs`. -/
inductive InsertElementError where
  | NotFound (r : EntityRef)
  | ReplaceChildOutOfRange (n : Nat) (r : EntityRef) (last : Nat)
  | DropEntityError (n : Nat) (r : EntityRef) (e : DropEntityError)
deriving DecidableEq, Repr

/-- `PlacePosition` of `manipulation.rs`. -/
inductive PlacePosition where
  | InsertFront
  | InsertBack
  | InsertFrontN (n : Nat)
  | InsertBackN (n : Nat)
  | Replace (n : Nat)
deriving DecidableEq, Repr

/-- First index of `r` in `children` (the linear scan of `drop_impl` that
locates the child reference to unlink). -/
def findRefIdx (children : List EntityRef) (r : EntityRef) : Option Nat :=
  children.findIdx? (fun c => c = r)

/-- `Document::drop_impl`.  Because the method takes `&mut self` and can
fail after mutating, the result carries the (possibly changed) document next
to the `Result`.  The `for child in children.clone()` loop is a fold whose
accumulated first error makes the remaining steps no-ops (the Rust `?`);
the fuel (structural, so the definition computes) bounds the recursion
depth through children. -/
def dropImpl : Nat → Document → EntityRef → Bool → Run (Document × Except DropEntityError Unit)
  | 0, _, _, _ => .nofuel
  | fuel + 1, d, ref, isParent =>
    match ref with
    | .Element i =>
      if i = 0 then .out (d, .error .RefuseDropRoot)
      else
        match d.elementStore.get? i with
        | some (some e) =>
          let afterChildren := e.children.foldl
            (fun (acc : Run (Document × Except DropEntityError Unit)) child =>
              acc.bind fun p =>
                match p with
                | (d1, Except.ok ()) => dropImpl fuel d1 child false
                | (d1, Except.error er) => Run.out (d1, Except.error er))
            (Run.out (d, .ok ()))
          match afterChildren with
          | .nofuel => .nofuel
          | .panic => .panic
          | .out (d1, .error er) => .out (d1, .error er)
          | .out (d1, .ok ()) =>
            let unlinked : Run Document :=
              if isParent then
                match d1.elementStore.get? i with
                | some (some e1) =>
                  match d1.elementStore.get? e1.parent with
                  | some (some pe) =>
                    match findRefIdx pe.children ref with
                    | some j =>
                      let pe' := { pe with children := pe.children.eraseIdx j }
                      .out { d1 with
                        elementStore := d1.elementStore.set e1.parent (some pe') }
                    | none => .out d1
                  | _ => .panic
                | _ => .panic
              else .out d1
            match unlinked with
            | .nofuel => .nofuel
            | .panic => .panic
            | .out d2 =>
              .out ({ d2 with elementStore := d2.elementStore.set i none }, .ok ())
        | _ => .out (d, .error (.NotFound ref))
    | .Text i =>
      match d.textStore.get? i with
      | some (some t) =>
        let unlinked : Run Document :=
          if isParent then
            match d.elementStore.get? t.parent with
            | some (some pe) =>
              match findRefIdx pe.children ref with
              | some j =>
                let pe' := { pe with children := pe.children.eraseIdx j }
                .out { d with
                  elementStore := d.elementStore.set t.parent (some pe') }
              | none => .out d
            | _ => .panic
          else .out d
        match unlinked with
        | .nofuel => .nofuel
        | .panic => .panic
        | .out d1 =>
          .out ({ d1 with textStore := d1.textStore.set i none }, .ok ())
      | _ => .out (d, .error (.NotFound ref))

/-- `Document::drop`: `drop_impl` with `is_parent = true`. -/
def dropRun (fuel : Nat) (d : Document) (ref : EntityRef) :
    Run (Document × Except DropEntityError Unit) :=
  dropImpl fuel d ref true

/-- The element appended unconditionally at the top of `Document::insert`
(before the parent is even checked). -/
def pushedInsertElem (parentId : Nat) (pfx loc : List Char) (attrs : List Attr) : Element :=
  { parent := parentId, children := [], pfx := pfx, loc := loc, attributes := attrs }

/-- The document after `Document::insert` has pushed the new element. -/
def pushInsertElem (d : Document) (parentId : Nat) (pfx loc : List Char)
    (attrs : List Attr) : Document :=
  { d with elementStore := d.elementStore ++ [some (pushedInsertElem parentId pfx loc attrs)] }

/-- `Document::insert`.  Faithful to the source: the new element is pushed
first; `element_num` is the store length **after** the push; the parent
check `self.element_store[parent_id].is_some()` is a direct `Vec` index, so
a `parent_id` beyond the post-push store length is a panic (only a `None`
slot in range yields `NotFound`); `parent_end` is the unchecked
`children.len() - 1` (a `usize` underflow — panic — for a childless
parent); `Replace(n)` drops the old child and never writes the new
reference.  The fuel feeds the nested `drop`. -/
def insertRun (fuel : Nat) (d : Document) (parentId : Nat) (pp : PlacePosition)
    (pfx loc : List Char) (attrs : List Attr) :
    Run (Document × Except InsertElementError Unit) :=
  let d0 := pushInsertElem d parentId pfx loc attrs
  let elementNum := d0.elementStore.length
  match d0.elementStore.get? parentId with
  | some (some pe) =>
    match subChecked pe.children.length 1 with
    | .nofuel => .nofuel
    | .panic => .panic
    | .out parentEnd =>
      let setChildren (cs : List EntityRef) : Document :=
        { d0 with
          elementStore := d0.elementStore.set parentId (some { pe with children := cs }) }
      match pp with
      | .InsertFront =>
        .out (setChildren (EntityRef.Element elementNum :: pe.children), .ok ())
      | .InsertBack =>
        .out (setChildren (pe.children ++ [EntityRef.Element elementNum]), .ok ())
      | .InsertFrontN n =>
        .out (setChildren (pe.children.insertIdx (min n parentEnd)
          (EntityRef.Element elementNum)), .ok ())
      | .InsertBackN n =>
        .out (setChildren (pe.children.insertIdx (parentEnd - n)
          (EntityRef.Element elementNum)), .ok ())
      | .Replace n =>
        if n > parentEnd then
          .out (d0, .error (.ReplaceChildOutOfRange n (.Element parentId) parentEnd))
        else
          match pe.children.get? n with
          | none => .panic
          | some cref =>
            match dropRun fuel d0 cref with
            | .nofuel => .nofuel
            | .panic => .panic
            | .out (d1, .ok ()) => .out (d1, .ok ())
            | .out (d1, .error er) =>
              .out (d1, .error (.DropEntityError n (.Element parentId) er))
  | some none => .out (d0, .error (.NotFound (.Element parentId)))
  | none => .panic

/-! ### The tree-consistency invariant (spec §3 / §8) and concrete fixtures -/

/-- The element half of the tree-consistency invariant at index `i`: a live
element at `i > 0` must have a live parent whose children mention
`EntityRef::Element(i)` exactly once. -/
def elemConsistentAt (d : Document) (i : Nat) : Bool :=
  match d.elementStore.get? i with
  | some (some e) =>
    if i = 0 then true
    else
      match d.elementStore.get? e.parent with
      | some (some pe) => pe.children.count (EntityRef.Element i) = 1
      | _ => false
  | _ => true

/-- The text half of the tree-consistency invariant at index `j`. -/
def textConsistentAt (d : Document) (j : Nat) : Bool :=
  match d.textStore.get? j with
  | some (some t) =>
    match d.elementStore.get? t.parent with
    | some (some pe) => pe.children.count (EntityRef.Text j) = 1
    | _ => false
  | _ => true

/-- Tree consistency of a whole document (claim C2's invariant). -/
def treeConsistentB (d : Document) : Bool :=
  ((List.range d.elementStore.length).all fun i => elemConsistentAt d i) &&
  ((List.range d.textStore.length).all fun j => textConsistentAt d j)

/-- The document produced by parsing `<document/>`. -/
def emptyDocParsed : Document :=
  { elementStore := [some rootElement], textStore := [] }

/-- Source `<document><a/></document>`. -/
def srcDocA : List Char := "<document><a/></document>".data

/-- The document parsed from `srcDocA`. -/
def docA : Document :=
  { elementStore :=
      [some { parent := 0, children := [.Element 1], pfx := [], loc := "document".data,
              attributes := [] },
       some { parent := 0, children := [], pfx := [], loc := "a".data, attributes := [] }],
    textStore := [] }

/-- `docA` after `insert(0, InsertBack, "", "foo", [])`: the parent's children
gained the dangling `Element 3` while the new element lives at index 2. -/
def docAInserted : Document :=
  { elementStore :=
      [some { parent := 0, children := [.Element 1, .Element 3], pfx := [],
              loc := "document".data, attributes := [] },
       some { parent := 0, children := [], pfx := [], loc := "a".data, attributes := [] },
       some { parent := 0, children := [], pfx := [], loc := "foo".data, attributes := [] }],
    textStore := [] }

/-- `docA` after `insert(0, Replace(0), "", "foo", [])`: slot 0 was dropped
and removed; nothing references the new element at index 2. -/
def docAReplaced : Document :=
  { elementStore :=
      [some { parent := 0, children := [], pfx := [], loc := "document".data,
              attributes := [] },
       none,
       some { parent := 0, children := [], pfx := [], loc := "foo".data, attributes := [] }],
    textStore := [] }

/-- `docA` after `drop(Element(1))`. -/
def docADropped : Document :=
  { elementStore :=
      [some { parent := 0, children := [], pfx := [], loc := "document".data,
              attributes := [] },
       none],
    textStore := [] }

/-- `docADropped` after the failing `insert(1, InsertBack, "", "foo", [])`:
the parent was `None`, yet the new element was still appended. -/
def docADroppedInserted : Document :=
  { elementStore :=
      [some { parent := 0, children := [], pfx := [], loc := "document".data,
              attributes := [] },
       none,
       some { parent := 1, children := [], pfx := [], loc := "foo".data, attributes := [] }],
    textStore := [] }

/-- Source of boundary scenario 4: mismatched close tags. -/
def srcMismatch : List Char := "<document><one><two></one></two></document>".data

/-- Source whose character data runs to the end of the input (claim C4). -/
def srcTextToEof : List Char := "<document>abc".data

/-- The tokenizer over `srcTextToEof` after `ElementStart` was emitted:
in `Attributes`, facing `>abc`. -/
def tkAfterStart : Tk :=
  { stream := { text := srcTextToEof, pos := 9, stop := 13 },
    state := .Attributes, depth := 0, fragment := false }

/-- The tokenizer state over `srcTextToEof` after `ElementStart` and
`ElementEnd::Open` have been emitted: in `Elements`, facing `abc`. -/
def tkAtText : Tk :=
  { stream := { text := srcTextToEof, pos := 10, stop := 13 },
    state := .Elements, depth := 1, fragment := false }

/-- The stream of `tkAtText` (whitespace skipping leaves it unchanged). -/
def streamAtText : Stream := { text := srcTextToEof, pos := 10, stop := 13 }

/-- Source `<document a='x"y' />`: a single-quoted attribute value holding a
double quote (claim C9; the apostrophe is scalar 39). -/
def srcQuoteAttr : List Char :=
  "<document a=".data ++ [Char.ofNat 39] ++ "x\"y".data ++ [Char.ofNat 39] ++ " />".data

/-- The document parsed from `srcQuoteAttr`. -/
def docQuoteAttr : Document :=
  { elementStore :=
      [some { parent := 0, children := [], pfx := [], loc := "document".data,
              attributes := [{ pfx := [], loc := "a".data, value := some "x\"y".data }] }],
    textStore := [] }

/-- What the renderer emits for `docQuoteAttr`: the inner double quote is
written unescaped, so this string does not re-parse. -/
def renderedQuoteAttr : List Char := "<document a=\"x\"y\" />\n".data

/-- Source `<document/>/*c*/`: a comment after the closed root (claim C3). -/
def srcCommentAfterRoot : List Char := "<document/>/*c*/".data

/-- The span-token result and stream of a close-element parse, paired for
restating `parse_next_impl`'s close branch (claim C10). -/
def closeResult (s : Stream) : (Except PError Token) × Stream := parseCloseElement s

/-- The root element of `docA` (live, one child `Element 1`). -/
def docARoot : Element :=
  { parent := 0, children := [.Element 1], pfx := [], loc := "document".data,
    attributes := [] }

/-- A small `<a>` element fixture. -/
def elemA : Element :=
  { parent := 0, children := [], pfx := [], loc := "a".data, attributes := [] }

/-- A mid-parse state: `<a>` (element 1) is the innermost open element. -/
def stateOpenA : PState :=
  { elementNum := 2, textNum := 0, hierarchy := [1, 0],
    elementStore := [some rootElement, some elemA], textStore := [] }

/-- `stateOpenA` after the matching close tag popped element 1. -/
def stateClosedA : PState :=
  { elementNum := 2, textNum := 0, hierarchy := [0],
    elementStore := [some rootElement, some elemA], textStore := [] }

/-! ### Claim theorems -/

/-- C1: the claim says `insert(0, InsertBack, "", "foo", [])` on the document
parsed from `<document/>` succeeds and renders as a `<document>` with one
child `<foo />`.  On the source it does not: parsing succeeds, but `insert`
evaluates `parent.children.len() - 1` for the childless root — a `usize`
underflow, i.e. a panic (and in a wrapping build the pushed child reference
would be `Element 2`, the store length after the push, while the new element
lives at index 1, so rendering would index out of bounds). -/
theorem c1_insert_back_on_empty_document_panics :
    docNew ("<document/>".data) 100 = .out (.ok emptyDocParsed) ∧
    insertRun 50 emptyDocParsed 0 .InsertBack [] ("foo".data) [] = .panic := by
  constructor
  · decide
  · decide

/-- C2: the claim says tree consistency is preserved by every successful
`insert`/`drop` sequence.  It is not: starting from the consistent document
parsed from `<document><a/></document>`, the single successful
`insert(0, InsertBack, "", "foo", [])` yields a document whose live element
at index 2 is referenced zero times by its parent (the parent instead holds
the dangling `Element 3`, because `insert` links `element_store.len()` taken
after the push). -/
theorem c2_insert_breaks_tree_consistency :
    docNew srcDocA 100 = .out (.ok docA) ∧
    treeConsistentB docA = true ∧
    insertRun 50 docA 0 .InsertBack [] ("foo".data) [] = .out (docAInserted, .ok ()) ∧
    treeConsistentB docAInserted = false ∧
    docAInserted.elementStore.get? 2 =
      some (some (pushedInsertElem 0 [] ("foo".data) [])) ∧
    (docAInserted.elementStore.get? 0).map
      (Option.map fun e => e.children.count (EntityRef.Element 2)) = some (some 0) := by
  refine ⟨by decide, by decide, by decide, by decide, by decide, by decide⟩

/-- C3: the claim says no operation of the core panics.  `Document::new`
itself panics on `<document/>/*c*/`: the comment token is delivered after
the root was popped, and `hierarchy.last().unwrap()` runs on an empty
stack. -/
theorem c3_docnew_panics_on_token_after_closed_root :
    docNew srcCommentAfterRoot 100 = .panic := by decide

/-- C9: the claim says every renderer output of a successfully parsed
document re-parses and re-renders to itself.  Parsing `<document a='x"y' />`
succeeds, but the renderer writes the attribute's inner double quote
unescaped (`<document a="x"y" />`), and re-parsing that output fails with
`InvalidAttribute(InvalidSpace('y', 1:16), 1:16)`. -/
theorem c9_render_parse_roundtrip_fails :
    docNew srcQuoteAttr 100 = .out (.ok docQuoteAttr) ∧
    intoString docQuoteAttr 50 = .out renderedQuoteAttr ∧
    docNew renderedQuoteAttr 100 =
      .out (.error (.SyntaxError (.InvalidAttribute
        (.InvalidSpace 'y' { row := 1, col := 16 }) { row := 1, col := 16 }))) := by
  refine ⟨by decide, by decide, by decide⟩

/-- C7: `Document::new` validates the document start exactly as claimed —
no first token gives `EmptyDocument`; any first token other than an
`ElementStart` with empty prefix and local name `document` (a comment
included) gives `InvalidRootElement` carrying that token's span as a 1-based
row/col range; a well-formed root start token passes validation, so parsing
proceeds. -/
theorem c7_validate_document_start :
    (∀ source : List Char,
      validateDocumentStart source none = .error .EmptyDocument) ∧
    (∀ (source : List Char) (tok : Token),
      (∀ sp, tok ≠ .ElementStart [] ("document".data) sp) →
      validateDocumentStart source (some (.ok tok)) =
        .error (.InvalidRootElement (spanTextRange source tok.span))) ∧
    (∀ (source : List Char) (sp : Span),
      validateDocumentStart source (some (.ok (.ElementStart [] ("document".data) sp))) =
        .ok ()) := by
  refine ⟨fun _ => rfl, ?_, ?_⟩
  · intro source tok h
    cases tok with
    | ElementStart p l sp =>
      have hne : ¬ (l = "document".data ∧ p = []) := by
        rintro ⟨hl, hp⟩
        exact h sp (by rw [hl, hp])
      simp only [validateDocumentStart, if_neg hne]
      rfl
    | Comment _ _ => rfl
    | Attribute _ _ _ _ => rfl
    | Modifier _ _ _ => rfl
    | ElementEnd _ _ => rfl
    | Text _ _ => rfl
  · intro source sp
    simp [validateDocumentStart]

/-- C7 witness: the comment token of `/* comment */` is rejected with the
1-based range `1:1..14` (the repository's own test fixture). -/
theorem c7_validate_document_start_witness :
    (∀ sp, Token.Comment (" comment ".data) { start := 0, stop := 13 } ≠
      Token.ElementStart [] ("document".data) sp) ∧
    validateDocumentStart ("/* comment */".data)
        (some (.ok (Token.Comment (" comment ".data) { start := 0, stop := 13 }))) =
      .error (.InvalidRootElement
        { first := { row := 1, col := 1 }, last := { row := 1, col := 14 } }) := by
  refine ⟨fun sp h => Token.noConfusion h, ?_⟩
  have h := c7_validate_document_start.2.1 ("/* comment */".data)
    (Token.Comment (" comment ".data) { start := 0, stop := 13 })
    (fun sp h => Token.noConfusion h)
  exact h.trans (by decide)

/-- C8: during `Document::new`, a `Close(p, l)` token matching the innermost
open element's `(prefix, local)` pops that element, and any other `Close`
fails with `InvalidTreeStructure` whose names render as `prefix:local` (or
the local name alone) and whose location is the close tag's span; concretely,
`<document><one><two></one></two></document>` fails with
`closed_elem = "one"`, `current_open_elem = "two"`, location `1:21..27`. -/
theorem c8_close_tag_matching :
    (∀ (source : List Char) (st : PState) (p l : List Char) (sp : Span)
       (t : Nat) (e : Element),
      st.hierarchy.head? = some t →
      st.elementStore.get? t = some (some e) →
      (e.pfx = p ∧ e.loc = l →
        docStep source st (.ElementEnd (.Close p l) sp) =
          .out (.ok { st with hierarchy := st.hierarchy.tail })) ∧
      (¬ (e.pfx = p ∧ e.loc = l) →
        docStep source st (.ElementEnd (.Close p l) sp) =
          .out (.error (.InvalidTreeStructure (genFullName p l)
            (genFullName e.pfx e.loc) (spanTextRange source sp))))) ∧
    docNew srcMismatch 200 =
      .out (.error (.InvalidTreeStructure ("one".data) ("two".data)
        { first := { row := 1, col := 21 }, last := { row := 1, col := 27 } })) := by
  constructor
  · intro source st p l sp t e ht he
    constructor
    · intro hm
      simp only [docStep, ht, he, if_pos hm]
    · intro hm
      simp only [docStep, ht, he, if_neg hm]
  · decide

/-- C8 witness: the matching-close half applied to a concrete mid-parse
state — closing `<a>` while `a` is the innermost open element pops it. -/
theorem c8_close_tag_matching_witness :
    stateOpenA.hierarchy.head? = some 1 ∧
    stateOpenA.elementStore.get? 1 = some (some elemA) ∧
    docStep [] stateOpenA (.ElementEnd (.Close [] ("a".data)) { start := 5, stop := 9 }) =
      .out (.ok stateClosedA) := by
  refine ⟨by decide, by decide, ?_⟩
  have h := (c8_close_tag_matching.1 [] stateOpenA [] ("a".data)
    { start := 5, stop := 9 } 1 elemA (by decide) (by decide)).1 ⟨rfl, rfl⟩
  exact h.trans (by decide)

/-- C5 counterexample: on the document parsed from
`<document><a/></document>`, `insert(0, Replace(0), "", "foo", [])` succeeds
— but the parent's children end up empty: the new element (live at index 2)
is *not* placed into slot 0, contradicting the claim that after success the
parent's children at position `n` names the new element. -/
theorem c5_replace_slot_not_filled :
    docNew srcDocA 100 = .out (.ok docA) ∧
    insertRun 50 docA 0 (.Replace 0) [] ("foo".data) [] =
      .out (docAReplaced, .ok ()) ∧
    docAReplaced.elementStore.get? 2 =
      some (some (pushedInsertElem 0 [] ("foo".data) [])) ∧
    (docAReplaced.elementStore.get? 0).map (Option.map Element.children) =
      some (some []) := by
  refine ⟨by decide, by decide, by decide, by decide⟩

/-- Core behavior of the `Replace(n)` branch of `insert` on a live parent
with at least one child, shared by the C5 and C6 theorems. -/
theorem insertReplaceCore (d : Document) (parentId n fuel : Nat)
    (pfx loc : List Char) (attrs : List Attr) (pe : Element)
    (hpe : d.elementStore.get? parentId = some (some pe))
    (hlen : 1 ≤ pe.children.length) :
    (pe.children.length - 1 < n →
      insertRun fuel d parentId (.Replace n) pfx loc attrs =
        .out (pushInsertElem d parentId pfx loc attrs,
          .error (.ReplaceChildOutOfRange n (.Element parentId)
            (pe.children.length - 1)))) ∧
    (∀ cref, n ≤ pe.children.length - 1 → pe.children.get? n = some cref →
      insertRun fuel d parentId (.Replace n) pfx loc attrs =
        (dropRun fuel (pushInsertElem d parentId pfx loc attrs) cref).map
          fun p => (p.1, p.2.mapError
            fun er => .DropEntityError n (.Element parentId) er)) := by
  have hlt : parentId < d.elementStore.length := by
    rcases List.get?_eq_some.mp hpe with ⟨h, _⟩
    exact h
  have hget : (pushInsertElem d parentId pfx loc attrs).elementStore.get? parentId =
      some (some pe) := by
    simpa [pushInsertElem, List.getElem?_append_left hlt] using hpe
  constructor
  · intro hn
    simp only [insertRun, hget, subChecked, hlen, if_true, if_pos hn]
  · intro cref hn hcref
    have hnn : ¬ (pe.children.length - 1 < n) := Nat.not_lt.mpr hn
    simp only [insertRun, hget, subChecked, hlen, if_true, if_neg hnn, hcref]
    rcases hdrop : dropRun fuel (pushInsertElem d parentId pfx loc attrs) cref with
      ⟨d1, r1⟩ | _ | _
    · cases r1 <;> simp [Run.map, Except.mapError]
    · simp [Run.map]
    · simp [Run.map]

/-- C5 amended: on a live parent with `L ≥ 1` children, `Replace(n)` fails
with `ReplaceChildOutOfRange(n, parent, L-1)` exactly when `n > L-1`;
otherwise it drops the current child at slot `n` (which unlinks it) and
returns exactly the drop's outcome — the new element is appended to the
store but its `EntityRef` is never written into the slot.  (For `L = 0` the
unchecked `L - 1` underflows instead.) -/
theorem c5_replace_amended :
    ∀ (d : Document) (parentId n fuel : Nat) (pfx loc : List Char)
      (attrs : List Attr) (pe : Element),
      d.elementStore.get? parentId = some (some pe) →
      1 ≤ pe.children.length →
      ((pe.children.length - 1 < n →
        insertRun fuel d parentId (.Replace n) pfx loc attrs =
          .out (pushInsertElem d parentId pfx loc attrs,
            .error (.ReplaceChildOutOfRange n (.Element parentId)
              (pe.children.length - 1)))) ∧
       (∀ cref, n ≤ pe.children.length - 1 → pe.children.get? n = some cref →
        insertRun fuel d parentId (.Replace n) pfx loc attrs =
          (dropRun fuel (pushInsertElem d parentId pfx loc attrs) cref).map
            fun p => (p.1, p.2.mapError
              fun er => .DropEntityError n (.Element parentId) er))) := by
  intro d parentId n fuel pfx loc attrs pe hpe hlen
  exact insertReplaceCore d parentId n fuel pfx loc attrs pe hpe hlen

/-- C5 witness: `Replace(5)` on the parsed `<document><a/></document>`
(root has one child) fails with `ReplaceChildOutOfRange(5, Element 0, 0)`. -/
theorem c5_replace_amended_witness :
    docA.elementStore.get? 0 = some (some docARoot) ∧
    1 ≤ docARoot.children.length ∧
    docARoot.children.length - 1 < 5 ∧
    insertRun 50 docA 0 (.Replace 5) [] ("foo".data) [] =
      .out (pushInsertElem docA 0 [] ("foo".data) [],
        .error (.ReplaceChildOutOfRange 5 (.Element 0) 0)) := by
  refine ⟨by decide, by decide, by decide, ?_⟩
  exact (c5_replace_amended docA 0 5 50 [] ("foo".data) [] docARoot
    (by decide) (by decide)).1 (by decide)

/-- C6 counterexample: after dropping element 1 of the parsed
`<document><a/></document>`, the failing `insert(1, InsertBack, …)` (parent
slot is `None`) returns `NotFound` — yet the document has changed: the
element store grew by the orphan new element, contradicting the claim that
on error the document is exactly as before. -/
theorem c6_error_still_mutates :
    docNew srcDocA 100 = .out (.ok docA) ∧
    dropRun 50 docA (.Element 1) = .out (docADropped, .ok ()) ∧
    insertRun 50 docADropped 1 .InsertBack [] ("foo".data) [] =
      .out (docADroppedInserted, .error (.NotFound (.Element 1))) ∧
    docADroppedInserted ≠ docADropped ∧
    docADroppedInserted.elementStore.length = docADropped.elementStore.length + 1 := by
  refine ⟨by decide, by decide, by decide, by decide, by decide⟩

/-- C6 amended: whenever `insert` returns an error the document is as it was
except that the new element has been appended to the element store (the
push happens before any validation), and `Replace(n)` may additionally have
performed its drop (whose partial mutations remain if the drop itself
fails); `drop` errors that are detected up front (`RefuseDropRoot`, a
missing element or text slot) leave the document unchanged.  (A parent
index beyond the post-push store panics via the direct `Vec` index instead
of returning an error, so it is outside the "returns an error" scope.) -/
theorem c6_atomicity_amended :
    (∀ (d : Document) (parentId fuel : Nat) (pp : PlacePosition)
       (pfx loc : List Char) (attrs : List Attr),
      d.elementStore.get? parentId = some none →
      insertRun fuel d parentId pp pfx loc attrs =
        .out (pushInsertElem d parentId pfx loc attrs,
          .error (.NotFound (.Element parentId)))) ∧
    (∀ (d : Document) (parentId n fuel : Nat) (pfx loc : List Char)
       (attrs : List Attr) (pe : Element),
      d.elementStore.get? parentId = some (some pe) →
      1 ≤ pe.children.length →
      pe.children.length - 1 < n →
      insertRun fuel d parentId (.Replace n) pfx loc attrs =
        .out (pushInsertElem d parentId pfx loc attrs,
          .error (.ReplaceChildOutOfRange n (.Element parentId)
            (pe.children.length - 1)))) ∧
    (∀ (d : Document) (parentId n fuel : Nat) (pfx loc : List Char)
       (attrs : List Attr) (pe : Element) (cref : EntityRef)
       (d2 : Document) (er : DropEntityError),
      d.elementStore.get? parentId = some (some pe) →
      1 ≤ pe.children.length →
      n ≤ pe.children.length - 1 →
      pe.children.get? n = some cref →
      dropRun fuel (pushInsertElem d parentId pfx loc attrs) cref =
        .out (d2, .error er) →
      insertRun fuel d parentId (.Replace n) pfx loc attrs =
        .out (d2, .error (.DropEntityError n (.Element parentId) er))) ∧
    (∀ (d : Document) (fuel : Nat),
      dropRun (fuel + 1) d (.Element 0) = .out (d, .error .RefuseDropRoot)) ∧
    (∀ (d : Document) (i fuel : Nat), i ≠ 0 →
      d.elementStore.get? i = some none ∨ d.elementStore.get? i = none →
      dropRun (fuel + 1) d (.Element i) = .out (d, .error (.NotFound (.Element i)))) ∧
    (∀ (d : Document) (j fuel : Nat),
      d.textStore.get? j = some none ∨ d.textStore.get? j = none →
      dropRun (fuel + 1) d (.Text j) = .out (d, .error (.NotFound (.Text j)))) := by
  refine ⟨?_, ?_, ?_, ?_, ?_, ?_⟩
  · intro d parentId fuel pp pfx loc attrs hdead
    have hlt : parentId < d.elementStore.length := by
      rcases List.get?_eq_some.mp hdead with ⟨h, _⟩
      exact h
    have hget : (pushInsertElem d parentId pfx loc attrs).elementStore.get? parentId =
        some none := by
      simpa [pushInsertElem, List.getElem?_append_left hlt] using hdead
    cases pp <;> simp only [insertRun, hget]
  · intro d parentId n fuel pfx loc attrs pe hpe hlen hn
    exact (insertReplaceCore d parentId n fuel pfx loc attrs pe hpe hlen).1 hn
  · intro d parentId n fuel pfx loc attrs pe cref d2 er hpe hlen hn hcref hdrop
    have h := (insertReplaceCore d parentId n fuel pfx loc attrs pe hpe hlen).2
      cref hn hcref
    rw [h, hdrop]
    rfl
  · intro d fuel
    rfl
  · intro d i fuel hi hcase
    have hi0 : ¬ (i = 0) := hi
    rcases hcase with hdead | hoob
    · simp only [dropRun, dropImpl, if_neg hi0, hdead]
    · simp only [dropRun, dropImpl, if_neg hi0, hoob]
  · intro d j fuel hcase
    rcases hcase with hdead | hoob
    · simp only [dropRun, dropImpl, hdead]
    · simp only [dropRun, dropImpl, hoob]

/-- When the `chars` snapshot of `parse_text_impl` is exhausted, the loop
makes no progress: it never finishes, whatever the fuel. -/
theorem parseTextLoop_nil_nofuel : ∀ (n : Nat) (s : Stream),
    parseTextLoop n [] s = .nofuel := by
  intro n
  induction n with
  | zero => intro s; rfl
  | succ k ih => intro s; exact ih s

/-- `parse_text` never finishes on the stream positioned at the trailing
`abc` of `<document>abc`: the three characters are consumed and then the
exhausted snapshot spins. -/
theorem parseText_at_text_nofuel : ∀ fuel : Nat,
    parseText fuel streamAtText = .nofuel := by
  intro fuel
  match fuel with
  | 0 => rfl
  | 1 => rfl
  | 2 => rfl
  | 3 => rfl
  | n + 4 =>
    have h : parseTextLoop (n + 4) (['a', 'b', 'c']) streamAtText = .nofuel :=
      parseTextLoop_nil_nofuel (n + 1) (((streamAtText.advance 1).advance 1).advance 1)
    unfold parseText
    rw [show streamAtText.window = (['a', 'b', 'c']) from rfl, h]

/-- `parse_next_impl` never finishes from `tkAtText`. -/
theorem parseNextImpl_at_text_nofuel : ∀ fuel : Nat,
    parseNextImpl fuel tkAtText = .nofuel := by
  intro fuel
  have h := parseText_at_text_nofuel fuel
  show (match parseText fuel streamAtText with
        | .nofuel => Run.nofuel
        | .panic => Run.panic
        | .out (r, s') => Run.out (some r, { tkAtText with stream := s' })) = .nofuel
  rw [h]

/-- `next` never finishes from `tkAtText`. -/
theorem tkNext_at_text_nofuel : ∀ fuel : Nat, tkNext fuel tkAtText = .nofuel := by
  intro fuel
  match fuel with
  | 0 => rfl
  | n + 1 =>
    have h := parseNextImpl_at_text_nofuel (n + 1)
    show (match parseNextImpl (n + 1) tkAtText with
          | .nofuel => Run.nofuel
          | .panic => Run.panic
          | .out (none, tk') => tkNext n tk'
          | .out (some t, tk') =>
            match t with
            | .error _ =>
              Run.out (some t, { tk' with stream := tk'.stream.jumpToEnd, state := .End })
            | .ok _ => Run.out (some t, tk')) = .nofuel
    rw [h]

/-- C4: the claim says the tokenizer's iteration terminates for every input.
It does not: over `<document>abc` the first two `next()` calls yield
`ElementStart` and `ElementEnd::Open`, and the third enters
`parse_text_impl`, whose loop spins forever once the character snapshot is
exhausted without `<` or `/*` — at every fuel the model reports an
unfinished run. -/
theorem c4_tokenizer_loops_on_text_at_eof :
    tkNext 100 (tokenizerFrom srcTextToEof) =
      .out (some (.ok (.ElementStart [] ("document".data) { start := 0, stop := 9 })),
        tkAfterStart) ∧
    tkNext 100 tkAfterStart =
      .out (some (.ok (.ElementEnd .Open { start := 9, stop := 10 })), tkAtText) ∧
    (∀ fuel, tkNext fuel tkAtText = .nofuel) :=
  ⟨by decide, by decide, tkNext_at_text_nofuel⟩

/-- C6 witness: the `NotFound` case of the amended statement at the concrete
dropped document — the error result is exactly the old document plus the
appended orphan element. -/
theorem c6_atomicity_amended_witness :
    docADropped.elementStore.get? 1 = some none ∧
    insertRun 50 docADropped 1 .InsertBack [] ("foo".data) [] =
      .out (pushInsertElem docADropped 1 [] ("foo".data) [],
        .error (.NotFound (.Element 1))) := by
  refine ⟨by decide, ?_⟩
  exact c6_atomicity_amended.1 docADropped 1 50 .InsertBack [] ("foo".data) []
    (by decide)

/-- C10: in the `Elements` state, a close tag at depth 0 in fragment mode
leaves the depth at 0 (the decrement is guarded by `depth > 0`), the step
still emits whatever `parse_close_element` produces — an
`ElementEnd::Close` token whenever it succeeds — and the tokenizer stays in
`Elements` rather than entering `AfterElements`. -/
theorem c10_fragment_close_at_depth_zero :
    (∀ (fuel : Nat) (tk : Tk),
      tk.state = .Elements → tk.fragment = true → tk.depth = 0 →
      tk.stream.atEnd = false →
      (tk.stream.skipSpaces).startsWith ['<', '/'] = true →
      parseNextImpl fuel tk =
        .out (some (closeResult (tk.stream.skipSpaces)).1,
          { stream := (closeResult (tk.stream.skipSpaces)).2, state := .Elements,
            depth := 0, fragment := true })) ∧
    (∀ (s s2 : Stream) (tok : Token),
      parseCloseElement s = (.ok tok, s2) →
      ∃ p l sp, tok = .ElementEnd (.Close p l) sp) := by
  constructor
  · intro fuel tk hstate hfrag hdepth hend hsw
    obtain ⟨s0, st0, dep0, fr0⟩ := tk
    dsimp only at hstate hfrag hdepth hend hsw
    subst hstate hfrag hdepth
    obtain ⟨t, ht⟩ : (['<', '/'] : List Char) <+: (s0.skipSpaces).window := by
      exact (List.isPrefixOf_iff_prefix).mp hsw
    unfold parseNextImpl
    dsimp only
    rw [hend]
    simp only [Bool.false_eq_true, if_false]
    have hcb : (s0.skipSpaces).currByte = .ok '<' := by
      unfold Stream.currByte
      rw [← ht]
      rfl
    have hnb : (s0.skipSpaces).nextByte = .ok '/' := by
      unfold Stream.nextByte
      rw [← ht]
      rfl
    rw [hcb, hnb]
    rcases hpc : parseCloseElement (s0.skipSpaces) with ⟨r, s2⟩
    simp [closeResult, hpc]
  · intro s s2 tok h
    unfold parseCloseElement at h
    dsimp only at h
    rcases hq : (s.advance 2).consumeQname with e | ⟨p, l, s1⟩
    · rw [hq] at h
      dsimp only at h
      cases h
    · rw [hq] at h
      dsimp only at h
      rcases hb : (s1.skipSpaces).consumeByte '>' with e2 | s3
      · rw [hb] at h
        dsimp only at h
        cases h
      · rw [hb] at h
        dsimp only at h
        refine ⟨p, l, { start := s.pos, stop := s3.pos }, ?_⟩
        have := congrArg Prod.fst h
        dsimp only at this
        cases this
        rfl

/-- C10 witness: fragment mode over `</p>` — the close token is emitted,
the depth stays 0 and the state stays `Elements`. -/
theorem c10_fragment_close_witness :
    (tokenizerFromFragment ("</p>".data) 0 4).stream.atEnd = false ∧
    ((tokenizerFromFragment ("</p>".data) 0 4).stream.skipSpaces).startsWith
      ['<', '/'] = true ∧
    parseNextImpl 5 (tokenizerFromFragment ("</p>".data) 0 4) =
      .out (some (.ok (.ElementEnd (.Close [] ("p".data)) { start := 0, stop := 4 })),
        { stream := { text := "</p>".data, pos := 4, stop := 4 },
          state := .Elements, depth := 0, fragment := true }) := by
  refine ⟨by decide, by decide, ?_⟩
  have h := c10_fragment_close_at_depth_zero.1 5 (tokenizerFromFragment ("</p>".data) 0 4)
    rfl rfl rfl (by decide) (by decide)
  exact h.trans (by decide)

end Trax
